import Mathlib

/-!
Verification of the graceful-shutdown / health-aggregation coordinator of the
authservice repository (`modules/core/shutdown.go` and the `AppContext` /
health code in `modules/core`).  Go maps of component name to health status
are embedded as association lists with overwrite-on-insert semantics; `time.Time`
instants are embedded as discrete `Nat` clock values supplied by the caller;
Go channels are embedded as a small heap (`World`) of open/closed flags so
that aliasing of a channel obtained before shutdown is observable; a Go
`error` is embedded as `Option String` (`none` = nil).
-/

namespace AuthService

/-! ## Health data model (modules/core — AppContext health section) -/

/-- Component status constant `StatusHealthy = "healthy"`. -/
def StatusHealthy : String := "healthy"

/-- Component status constant `StatusUnhealthy = "unhealthy"`. -/
def StatusUnhealthy : String := "unhealthy"

/-- Component status constant `StatusDegraded = "degraded"`. -/
def StatusDegraded : String := "degraded"

/-- `HealthStatus` struct: status string, optional message, and two instants.
Instants are modelled as `Nat` clock values (the Go zero time is `0`). -/
structure HealthStatus where
  Status : String
  Message : String
  LastCheck : Nat
  Timestamp : Nat
  deriving Repr, DecidableEq

/-- Go map assignment `m[k] = v` on an association list: overwrite the
existing binding for `k` or append a fresh one. -/
def mapInsert (k : String) (v : HealthStatus) :
    List (String × HealthStatus) → List (String × HealthStatus)
  | [] => [(k, v)]
  | (k', v') :: rest =>
    if k' = k then (k, v) :: rest else (k', v') :: mapInsert k v rest

/-- Go map read `m[k]` on an association list. -/
def mapLookup (k : String) : List (String × HealthStatus) → Option HealthStatus
  | [] => none
  | (k', v') :: rest => if k' = k then some v' else mapLookup k rest

/-- `AppContext.UpdateHealthStatus` (component, status): the body executes
`status.Timestamp = time.Now()` and then stores the copy under the component
name.  `now` is the current clock value at the moment of the write. -/
def UpdateHealthStatus (now : Nat) (component : String) (status : HealthStatus)
    (m : List (String × HealthStatus)) : List (String × HealthStatus) :=
  mapInsert component { status with Timestamp := now } m

/-- The flag-accumulating `for`/`switch` loop inside `GetOverallHealth`:
walks the map entries carrying `hasUnhealthy` and `hasDegraded`. -/
def overallFlagsLoop : List (String × HealthStatus) → Bool → Bool → Bool × Bool
  | [], hasUnhealthy, hasDegraded => (hasUnhealthy, hasDegraded)
  | (_, status) :: rest, hasUnhealthy, hasDegraded =>
    if status.Status = StatusUnhealthy then overallFlagsLoop rest true hasDegraded
    else if status.Status = StatusDegraded then overallFlagsLoop rest hasUnhealthy true
    else overallFlagsLoop rest hasUnhealthy hasDegraded

/-- `AppContext.GetOverallHealth`: empty map yields Healthy; otherwise the
two flags computed by the loop decide Unhealthy > Degraded > Healthy.  The
returned struct sets only `Status`, `Message`, `Timestamp` (so `LastCheck`
is the zero instant). -/
def GetOverallHealth (now : Nat) (healthStatus : List (String × HealthStatus)) :
    HealthStatus :=
  if healthStatus.length = 0 then
    ⟨StatusHealthy, "No components registered", 0, now⟩
  else
    let flags := overallFlagsLoop healthStatus false false
    if flags.1 then ⟨StatusUnhealthy, "Some components are unhealthy", 0, now⟩
    else if flags.2 then ⟨StatusDegraded, "Some components are degraded", 0, now⟩
    else ⟨StatusHealthy, "All components healthy", 0, now⟩

/-! ### Health lemmas -/

theorem mapLookup_mapInsert_self (k : String) (v : HealthStatus) :
    ∀ m : List (String × HealthStatus), mapLookup k (mapInsert k v m) = some v := by
  intro m
  induction m with
  | nil => simp [mapInsert, mapLookup]
  | cons p rest ih =>
    obtain ⟨k', v'⟩ := p
    by_cases h : k' = k
    · simp [mapInsert, mapLookup, h]
    · simp [mapInsert, mapLookup, h, ih]

theorem statusUnhealthy_ne_degraded : StatusUnhealthy ≠ StatusDegraded := by decide

theorem statusDegraded_ne_unhealthy : StatusDegraded ≠ StatusUnhealthy := by decide

theorem overallFlagsLoop_eq (l : List (String × HealthStatus)) :
    ∀ b₁ b₂ : Bool, overallFlagsLoop l b₁ b₂ =
      (b₁ || l.any (fun p => p.2.Status = StatusUnhealthy),
       b₂ || l.any (fun p => p.2.Status = StatusDegraded)) := by
  induction l with
  | nil => intro b₁ b₂; simp [overallFlagsLoop]
  | cons p rest ih =>
    intro b₁ b₂
    obtain ⟨k, s⟩ := p
    by_cases hu : s.Status = StatusUnhealthy
    · have hd : ¬ s.Status = StatusDegraded := by
        rw [hu]; exact statusUnhealthy_ne_degraded
      simp [overallFlagsLoop, hu, hd, ih, statusUnhealthy_ne_degraded]
    · by_cases hd : s.Status = StatusDegraded
      · simp [overallFlagsLoop, hu, hd, ih, statusDegraded_ne_unhealthy]
      · simp [overallFlagsLoop, hu, hd, ih]

theorem perm_any {α : Type} (f : α → Bool) {l₁ l₂ : List α} (h : l₁.Perm l₂) :
    l₁.any f = l₂.any f := by
  cases hc : l₂.any f with
  | true =>
    rw [List.any_eq_true] at hc ⊢
    obtain ⟨x, hx, hfx⟩ := hc
    exact ⟨x, (h.mem_iff).2 hx, hfx⟩
  | false =>
    rw [List.any_eq_false] at hc ⊢
    intro x hx
    exact hc x ((h.mem_iff).1 hx)

/-! ## ShutdownManager (modules/core/shutdown.go)

A Go shutdown handler is a closure `func(ctx context.Context) error` that may
mutate shared state; it is embedded as a state transformer over an abstract
state `σ` returning the new state and the Go error (`Option String`).  The
deadline contexts carry no information the handlers of this repository read,
so the `Timeout` field is kept as data but the context itself is not passed. -/

/-- `ShutdownHandler` struct: name, handler closure, per-handler timeout
(seconds), priority (lower = earlier). -/
structure ShutdownHandler (σ : Type) where
  Name : String
  Handler : σ → σ × Option String
  Timeout : Nat
  Priority : Int

/-- `ShutdownManager` struct: the registered handler slice (the mutex and
logger carry no semantics in a sequential embedding). -/
structure ShutdownManager (σ : Type) where
  handlers : List (ShutdownHandler σ)

/-- `NewShutdownManager`: empty handler slice. -/
def NewShutdownManager {σ : Type} : ShutdownManager σ := ⟨[]⟩

/-- `ShutdownManager.RegisterHandler`: unconditionally appends the descriptor
to the slice.  The Go method returns nothing — there is no rejection path. -/
def ShutdownManager.RegisterHandler {σ : Type} (sm : ShutdownManager σ)
    (name : String) (handler : σ → σ × Option String) (timeout : Nat)
    (priority : Int) : ShutdownManager σ :=
  ⟨sm.handlers ++ [⟨name, handler, timeout, priority⟩]⟩

/-- One pass of the inner `j` loop of the sort in `ShutdownManager.Shutdown`:
carrying the current `handlers[i]` value `x` along `handlers[i+1..]`, swapping
whenever `handlers[i].Priority > handlers[j].Priority`.  Returns the final
value at position `i` and the rearranged tail. -/
def selectMin {α : Type} (pr : α → Int) : α → List α → α × List α
  | x, [] => (x, [])
  | x, y :: ys =>
    if pr y < pr x then
      let p := selectMin pr y ys
      (p.1, x :: p.2)
    else
      let p := selectMin pr x ys
      (p.1, y :: p.2)

/-- The outer `i` loop of the sort: runs once per position (the fuel is the
length of the slice, exactly the number of outer iterations in the Go code). -/
def exchangeSortAux {α : Type} (pr : α → Int) : Nat → List α → List α
  | 0, l => l
  | _ + 1, [] => []
  | n + 1, x :: xs =>
    let p := selectMin pr x xs
    p.1 :: exchangeSortAux pr n p.2

/-- The double-loop swap sort of `ShutdownManager.Shutdown` (lines 58–65). -/
def exchangeSort {α : Type} (pr : α → Int) (l : List α) : List α :=
  exchangeSortAux pr l.length l

/-- The handler loop of `ShutdownManager.Shutdown` (lines 69–85): invoke each
handler in order, threading the state, and record `(name, returned error)`
for every handler attempted. -/
def drainLoop {σ : Type} : List (ShutdownHandler σ) → σ →
    σ × List (String × Option String)
  | [], s => (s, [])
  | h :: rest, s =>
    let r := h.Handler s
    let d := drainLoop rest r.1
    (d.1, (h.Name, r.2) :: d.2)

/-- Result of a drain: final state, the per-handler execution record in
invocation order, and the returned error. -/
structure DrainOutcome (σ : Type) where
  state : σ
  record : List (String × Option String)
  res : Option String

/-- `ShutdownManager.Shutdown`: snapshot the slice, sort it with the double
loop, run every handler collecting errors in execution order, and return
`errors[0]` when any handler failed, nil otherwise (`head?` of the collected
error list). -/
def ShutdownManager.Shutdown {σ : Type} (sm : ShutdownManager σ) (s : σ) :
    DrainOutcome σ :=
  let handlers := exchangeSort (fun h => h.Priority) sm.handlers
  let d := drainLoop handlers s
  ⟨d.1, d.2, (d.2.filterMap (fun p => p.2)).head?⟩

/-! ### Sort lemmas -/

theorem selectMin_length {α : Type} (pr : α → Int) :
    ∀ (l : List α) (x : α), (selectMin pr x l).2.length = l.length := by
  intro l
  induction l with
  | nil => intro x; rfl
  | cons y ys ih =>
    intro x
    by_cases h : pr y < pr x
    · simp [selectMin, h, ih]
    · simp [selectMin, h, ih]

theorem selectMin_perm {α : Type} (pr : α → Int) :
    ∀ (l : List α) (x : α),
      List.Perm ((selectMin pr x l).1 :: (selectMin pr x l).2) (x :: l) := by
  intro l
  induction l with
  | nil => intro x; simp [selectMin]
  | cons y ys ih =>
    intro x
    by_cases h : pr y < pr x
    · simp only [selectMin, if_pos h]
      exact (List.Perm.swap x (selectMin pr y ys).1 _).trans ((ih y).cons x)
    · simp only [selectMin, if_neg h]
      exact (List.Perm.swap y (selectMin pr x ys).1 _).trans
        (((ih x).cons y).trans (List.Perm.swap x y ys))

theorem selectMin_le {α : Type} (pr : α → Int) :
    ∀ (l : List α) (x : α),
      pr (selectMin pr x l).1 ≤ pr x ∧
      ∀ y ∈ l, pr (selectMin pr x l).1 ≤ pr y := by
  intro l
  induction l with
  | nil => intro x; exact ⟨le_refl _, by simp⟩
  | cons y ys ih =>
    intro x
    by_cases h : pr y < pr x
    · simp only [selectMin, if_pos h]
      refine ⟨le_of_lt (lt_of_le_of_lt (ih y).1 h), ?_⟩
      intro z hz
      rcases List.mem_cons.mp hz with hz | hz
      · exact hz ▸ (ih y).1
      · exact (ih y).2 z hz
    · simp only [selectMin, if_neg h]
      refine ⟨(ih x).1, ?_⟩
      intro z hz
      rcases List.mem_cons.mp hz with hz | hz
      · exact hz ▸ le_trans (ih x).1 (not_lt.mp h)
      · exact (ih x).2 z hz

theorem exchangeSortAux_perm {α : Type} (pr : α → Int) :
    ∀ (n : Nat) (l : List α), List.Perm (exchangeSortAux pr n l) l := by
  intro n
  induction n with
  | zero => intro l; exact List.Perm.refl _
  | succ n ih =>
    intro l
    cases l with
    | nil => exact List.Perm.refl _
    | cons x xs =>
      simp only [exchangeSortAux]
      exact ((ih _).cons _).trans (selectMin_perm pr xs x)

theorem exchangeSort_perm {α : Type} (pr : α → Int) (l : List α) :
    List.Perm (exchangeSort pr l) l :=
  exchangeSortAux_perm pr l.length l

theorem exchangeSortAux_pairwise {α : Type} (pr : α → Int) :
    ∀ (n : Nat) (l : List α), l.length ≤ n →
      List.Pairwise (fun a b => pr a ≤ pr b) (exchangeSortAux pr n l) := by
  intro n
  induction n with
  | zero =>
    intro l hl
    have : l = [] := List.eq_nil_of_length_eq_zero (Nat.le_zero.mp hl)
    subst this
    exact List.Pairwise.nil
  | succ n ih =>
    intro l hl
    cases l with
    | nil => exact List.Pairwise.nil
    | cons x xs =>
      simp only [exchangeSortAux]
      rw [List.pairwise_cons]
      constructor
      · intro b hb
        have hb₂ : b ∈ (selectMin pr x xs).2 :=
          ((exchangeSortAux_perm pr n _).mem_iff).1 hb
        have hbm : b ∈ x :: xs :=
          ((selectMin_perm pr xs x).mem_iff).1 (List.mem_cons_of_mem _ hb₂)
        rcases List.mem_cons.mp hbm with hbm | hbm
        · exact hbm ▸ (selectMin_le pr xs x).1
        · exact (selectMin_le pr xs x).2 b hbm
      · apply ih
        rw [selectMin_length]
        exact Nat.le_of_succ_le_succ hl

theorem exchangeSort_pairwise {α : Type} (pr : α → Int) (l : List α) :
    List.Pairwise (fun a b => pr a ≤ pr b) (exchangeSort pr l) :=
  exchangeSortAux_pairwise pr l.length l (le_refl _)

/-! ### Drain lemmas -/

theorem drainLoop_names {σ : Type} :
    ∀ (l : List (ShutdownHandler σ)) (s : σ),
      (drainLoop l s).2.map Prod.fst = l.map ShutdownHandler.Name := by
  intro l
  induction l with
  | nil => intro s; rfl
  | cons h rest ih => intro s; simp [drainLoop, ih]

theorem filterMap_head_of_first {β : Type} :
    ∀ (l : List (String × Option β)) (i : Nat) (p : String × Option β)
      (e : β), l[i]? = some p → p.2 = some e →
      (∀ j q, j < i → l[j]? = some q → q.2 = none) →
      (l.filterMap (fun p => p.2)).head? = some e := by
  intro l
  induction l with
  | nil => intro i p e hp _ _; simp at hp
  | cons x xs ih =>
    intro i p e hp hpe hbefore
    cases i with
    | zero =>
      rw [List.getElem?_cons_zero] at hp
      have hx : x = p := by injection hp
      subst hx
      rw [List.filterMap_cons_some (f := fun (q : String × Option β) => q.2) (a := x) hpe]
      rfl
    | succ k =>
      have hx : x.2 = none := hbefore 0 x (Nat.succ_pos k) (by simp)
      rw [List.filterMap_cons_none (f := fun (q : String × Option β) => q.2) (a := x) hx]
      refine ih k p e (by simpa using hp) hpe ?_
      intro j q hj hq
      exact hbefore (j + 1) q (Nat.succ_lt_succ hj) (by simpa using hq)

theorem filterMap_nil_of_all_none {β : Type} (l : List (String × Option β))
    (h : ∀ p ∈ l, p.2 = none) : l.filterMap (fun p => p.2) = [] := by
  induction l with
  | nil => rfl
  | cons x xs ih =>
    have hx : x.2 = none := h x (List.mem_cons_self x xs)
    rw [List.filterMap_cons_none (f := fun (q : String × Option β) => q.2) (a := x) hx]
    exact ih (fun p hp => h p (List.mem_cons_of_mem x hp))

theorem shutdown_record_names {σ : Type} (sm : ShutdownManager σ) (s : σ) :
    (ShutdownManager.Shutdown sm s).record.map Prod.fst
      = (exchangeSort (fun h => h.Priority) sm.handlers).map ShutdownHandler.Name := by
  simp only [ShutdownManager.Shutdown]
  exact drainLoop_names _ _

/-! ### Concrete managers for counterexamples and witnesses -/

/-- Manager with handlers `a` (priority 2), `b` (priority 2), `c` (priority 1)
registered in that order; all succeed. -/
def smStable : ShutdownManager Unit :=
  ShutdownManager.RegisterHandler
    (ShutdownManager.RegisterHandler
      (ShutdownManager.RegisterHandler NewShutdownManager
        "a" (fun s => (s, none)) 1 2)
      "b" (fun s => (s, none)) 1 2)
    "c" (fun s => (s, none)) 1 1

/-- Manager with `w1` (priority 1, succeeds), `w2` (priority 2, fails with
"boom"), `w3` (priority 3, fails with "later"). -/
def smFail : ShutdownManager Unit :=
  ShutdownManager.RegisterHandler
    (ShutdownManager.RegisterHandler
      (ShutdownManager.RegisterHandler NewShutdownManager
        "w1" (fun s => (s, none)) 1 1)
      "w2" (fun s => (s, some "boom")) 1 2)
    "w3" (fun s => (s, some "later")) 1 3

/-- Manager with the single handler `first` (priority 1, succeeds). -/
def smOne : ShutdownManager Unit :=
  ShutdownManager.RegisterHandler NewShutdownManager "first" (fun s => (s, none)) 1 1

/-! ### Claim C2 -/

/-- Claim C2 counterexample: handlers `a`, `b` share priority 2 and were
registered in the order a, b (before `c` with priority 1), but the drain of
`ShutdownManager.Shutdown` invokes them in the order c, b, a — the double-loop
swap sort is not stable, so the equal-priority pair a, b is executed in
reverse registration order. -/
theorem claim2_counterexample :
    smStable.handlers.map (fun h => h.Name) = ["a", "b", "c"]
  ∧ smStable.handlers.map (fun h => h.Priority) = [2, 2, 1]
  ∧ (ShutdownManager.Shutdown smStable ()).record.map Prod.fst = ["c", "b", "a"] :=
  ⟨rfl, rfl, rfl⟩

/-- Claim C2 (amended): `ShutdownManager.Shutdown` invokes the registered
handlers in non-decreasing priority order, and the invoked sequence is a
permutation of the registered list (each handler exactly once); equal-priority
handlers are, however, not guaranteed their registration order — the sort is
not stable. -/
theorem claim2_theorem {σ : Type} (sm : ShutdownManager σ) (s : σ) :
    (ShutdownManager.Shutdown sm s).record.map Prod.fst
      = (exchangeSort (fun h => h.Priority) sm.handlers).map ShutdownHandler.Name
  ∧ List.Pairwise (fun a b => a.Priority ≤ b.Priority)
      (exchangeSort (fun h => h.Priority) sm.handlers)
  ∧ List.Perm (exchangeSort (fun h => h.Priority) sm.handlers) sm.handlers :=
  ⟨shutdown_record_names sm s, exchangeSort_pairwise _ _, exchangeSort_perm _ _⟩

/-! ### Claim C3 -/

/-- Claim C3: during `ShutdownManager.Shutdown` every registered handler is
attempted (the execution record lists the whole sorted sequence, so no
handler failure aborts the drain); the returned error is exactly the first
failure in execution order; and if no handler fails the drain returns nil. -/
theorem claim3_theorem {σ : Type} (sm : ShutdownManager σ) (s : σ) :
    (ShutdownManager.Shutdown sm s).record.map Prod.fst
      = (exchangeSort (fun h => h.Priority) sm.handlers).map ShutdownHandler.Name
  ∧ (ShutdownManager.Shutdown sm s).record.length = sm.handlers.length
  ∧ ((∀ p ∈ (ShutdownManager.Shutdown sm s).record, p.2 = none) →
      (ShutdownManager.Shutdown sm s).res = none)
  ∧ (∀ (i : Nat) (p : String × Option String) (e : String),
      (ShutdownManager.Shutdown sm s).record[i]? = some p →
      p.2 = some e →
      (∀ (j : Nat) (q : String × Option String), j < i →
        (ShutdownManager.Shutdown sm s).record[j]? = some q → q.2 = none) →
      (ShutdownManager.Shutdown sm s).res = some e) := by
  refine ⟨shutdown_record_names sm s, ?_, ?_, ?_⟩
  · have h := congrArg List.length (shutdown_record_names sm s)
    simpa [(exchangeSort_perm (fun h => h.Priority) sm.handlers).length_eq] using h
  · intro hall
    show ((ShutdownManager.Shutdown sm s).record.filterMap (fun p => p.2)).head? = none
    rw [filterMap_nil_of_all_none _ hall]
    rfl
  · intro i p e hp hpe hbefore
    exact filterMap_head_of_first _ i p e hp hpe hbefore

/-- Claim C3 witness: on the concrete manager `smFail` (handler `w1` succeeds,
`w2` fails with "boom", `w3` fails with "later") the drain returns the first
failure "boom". -/
theorem claim3_witness : (ShutdownManager.Shutdown smFail ()).res = some "boom" := by
  refine (claim3_theorem smFail ()).2.2.2 1 ("w2", some "boom") "boom" rfl rfl ?_
  intro j q hj hq
  have hj0 : j = 0 := Nat.lt_one_iff.mp hj
  subst hj0
  rw [show (ShutdownManager.Shutdown smFail ()).record[0]?
        = some (("w1", (none : Option String))) from rfl] at hq
  injection hq with h1
  rw [← h1]

/-! ### Claim C5 -/

/-- Claim C5 counterexample: `smOne` has completed a full drain, yet a
subsequent `RegisterHandler` call stores the late handler (the Go method has
no error return at all, so no "too late" error can be surfaced), and a later
drain even executes it. -/
theorem claim5_counterexample :
    (ShutdownManager.Shutdown smOne ()).record.map Prod.fst = ["first"]
  ∧ (ShutdownManager.RegisterHandler smOne "late" (fun s => (s, none)) 1 2).handlers.map
      (fun h => h.Name) = ["first", "late"]
  ∧ (ShutdownManager.Shutdown
      (ShutdownManager.RegisterHandler smOne "late" (fun s => (s, none)) 1 2)
      ()).record.map Prod.fst = ["first", "late"] :=
  ⟨rfl, rfl, rfl⟩

/-- Claim C5 (amended): `ShutdownManager.RegisterHandler` never rejects a
registration — including after a drain has run, it unconditionally appends
the handler to the stored slice (the method has no error return), and a
subsequent `ShutdownManager.Shutdown` executes the late handler.  Only a
drain that already snapshotted the slice excludes it. -/
theorem claim5_theorem {σ : Type} (sm : ShutdownManager σ) (name : String)
    (handler : σ → σ × Option String) (timeout : Nat) (priority : Int) (s : σ) :
    (ShutdownManager.RegisterHandler sm name handler timeout priority).handlers
      = sm.handlers ++ [⟨name, handler, timeout, priority⟩]
  ∧ name ∈ (ShutdownManager.Shutdown
      (ShutdownManager.RegisterHandler sm name handler timeout priority) s).record.map
      Prod.fst := by
  constructor
  · rfl
  · rw [shutdown_record_names]
    refine List.mem_map.mpr ⟨⟨name, handler, timeout, priority⟩, ?_, rfl⟩
    apply (exchangeSort_perm _ _).mem_iff.mpr
    simp [ShutdownManager.RegisterHandler]

/-! ## AppContext (modules/core — context and shutdown wiring) -/

/-- Heap of Go channels: the index is a channel id, the value its closed
flag.  A channel reference is an id; Go `nil` is `none`. -/
structure World where
  chans : List Bool
  deriving Repr, DecidableEq

/-- `make(chan struct{})`: allocate a fresh open channel. -/
def newChan (w : World) : World × Nat :=
  (⟨w.chans ++ [false]⟩, w.chans.length)

/-- `close(ch)`: mark the channel closed in the heap. -/
def closeChan (w : World) (ch : Nat) : World :=
  ⟨w.chans.set ch true⟩

/-- `AppContext` struct.  Only the fields the verified claims read are
modelled: the shutdown channel reference (`none` is the Go nil channel) and
the health map; `Logger`, `Config`, the placeholder dependency slots, the
start time and the two mutexes carry no behavior the claims touch. -/
structure AppContext where
  shutdown : Option Nat
  healthStatus : List (String × HealthStatus)

/-- `NewAppContext`: allocates the open shutdown channel, starts from an
empty health map, then seeds the reserved `"appcontext"` entry through
`UpdateHealthStatus` (Healthy, "Application context initialized"). -/
def NewAppContext (w : World) (now : Nat) : World × AppContext :=
  let a := newChan w
  (a.1,
   { shutdown := some a.2,
     healthStatus := UpdateHealthStatus now "appcontext"
       ⟨StatusHealthy, "Application context initialized", 0, now⟩ [] })

/-- `AppContext.IsShutdown`: `ac.shutdown == nil`. -/
def AppContext.IsShutdown (ac : AppContext) : Bool :=
  ac.shutdown.isNone

/-- `AppContext.GetShutdownChannel`: returns the channel field as is. -/
def AppContext.GetShutdownChannel (ac : AppContext) : Option Nat :=
  ac.shutdown

/-- `AppContext.WaitForShutdown`: returns `GetShutdownChannel`. -/
def AppContext.WaitForShutdown (ac : AppContext) : Option Nat :=
  ac.GetShutdownChannel

/-- `AppContext.RegisterShutdownHandler` as written in the source: the body
only logs the registration and discards the handler (`_ = handler` next to a
TODO comment); no coordinator stores it and the context is unchanged. -/
def AppContext.RegisterShutdownHandler (ac : AppContext) (name : String)
    (handler : AppContext → AppContext × Option String) (timeout : Nat)
    (priority : Int) : AppContext :=
  ac

/-- `AppContext.AddShutdownHandler`: delegates to `RegisterShutdownHandler`
with default timeout 30s and priority 50. -/
def AppContext.AddShutdownHandler (ac : AppContext) (name : String)
    (handler : AppContext → AppContext × Option String) : AppContext :=
  ac.RegisterShutdownHandler name handler 30 50

/-- Result of `AppContext.Shutdown`: final context, channel heap, drain
execution record and returned error. -/
structure AppShutdownOutcome where
  ctx : AppContext
  world : World
  record : List (String × Option String)
  res : Option String

/-- `AppContext.Shutdown(timeout)` (shutdown.go lines 97–134): when the
channel field is already nil, return nil immediately with no drain; otherwise
close the channel, nil the field, build a fresh `ShutdownManager`, register
the built-in "logger" handler (no-op, 5s, priority 100) and the "health"
cleanup handler (resets the health map to empty, 2s, priority 90), and run
its drain.  `timeout` bounds the drain contexts, which the two built-in
handlers never read. -/
def AppContext.Shutdown (ac : AppContext) (w : World) (timeout : Nat) :
    AppShutdownOutcome :=
  match ac.shutdown with
  | none => ⟨ac, w, [], none⟩
  | some ch =>
    let w' := closeChan w ch
    let ac₁ : AppContext := { ac with shutdown := none }
    let sm₁ := ShutdownManager.RegisterHandler NewShutdownManager
      "logger" (fun a => (a, none)) 5 100
    let sm₂ := ShutdownManager.RegisterHandler sm₁
      "health" (fun a => ({ a with healthStatus := [] }, none)) 2 90
    let d := ShutdownManager.Shutdown sm₂ ac₁
    ⟨d.state, w', d.record, d.res⟩

/-- The empty channel heap. -/
def w0 : World := ⟨[]⟩

/-- A fresh context built at clock 0 over the empty heap. -/
def acFresh : AppContext := (NewAppContext w0 0).2

/-- The heap after constructing `acFresh` (one open channel). -/
def wFresh : World := (NewAppContext w0 0).1

/-! ### Heap index lemmas -/

theorem getElem?_append_singleton {α : Type} (l : List α) (a : α) :
    (l ++ [a])[l.length]? = some a := by
  induction l with
  | nil => rfl
  | cons x xs ih => simp [ih]

theorem getElem?_set_append_singleton {α : Type} (l : List α) (a b : α) :
    ((l ++ [a]).set l.length b)[l.length]? = some b := by
  induction l with
  | nil => rfl
  | cons x xs ih => simp [ih]

/-! ### Claim C1 -/

/-- Claim C1 evaluated at the failing input: registering a custom handler
"db" through `AppContext.RegisterShutdownHandler` leaves the context
unchanged (the source discards the handler), and the subsequent
`AppContext.Shutdown` drain executes only the two built-in handlers
"health" and "logger" — the registered "db" handler is never stored and
never invoked. -/
theorem claim1_code_eval :
    AppContext.RegisterShutdownHandler acFresh "db"
        (fun a => (a, some "db stop failed")) 5 10 = acFresh
  ∧ (AppContext.Shutdown
        (AppContext.RegisterShutdownHandler acFresh "db"
          (fun a => (a, some "db stop failed")) 5 10)
        wFresh 30).record.map Prod.fst = ["health", "logger"]
  ∧ ((AppContext.Shutdown
        (AppContext.RegisterShutdownHandler acFresh "db"
          (fun a => (a, some "db stop failed")) 5 10)
        wFresh 30).record.map Prod.fst).contains "db" = false :=
  ⟨rfl, rfl, rfl⟩

/-! ### Claim C4 -/

/-- Claim C4: on a context whose shutdown channel is still open, the first
`AppContext.Shutdown` call runs the drain exactly once (built-in handlers
"health" then "logger") and returns nil; the second call finds the nil
channel field, runs no drain at all (empty record, so each handler executed
exactly once across both calls) and also returns nil — both calls observe
the same result. -/
theorem claim4_theorem (ac : AppContext) (w : World) (ch t₁ t₂ : Nat)
    (h : ac.shutdown = some ch) :
    (AppContext.Shutdown ac w t₁).record.map Prod.fst = ["health", "logger"]
  ∧ (AppContext.Shutdown ac w t₁).res = none
  ∧ (AppContext.Shutdown (AppContext.Shutdown ac w t₁).ctx
      (AppContext.Shutdown ac w t₁).world t₂).record = []
  ∧ (AppContext.Shutdown (AppContext.Shutdown ac w t₁).ctx
      (AppContext.Shutdown ac w t₁).world t₂).res = none := by
  cases ac with
  | mk sd hs =>
    cases h
    exact ⟨rfl, rfl, rfl, rfl⟩

/-- Claim C4 witness: both sequential `Shutdown` calls on the fresh context
return nil and the second runs no drain. -/
theorem claim4_witness :
    (AppContext.Shutdown acFresh wFresh 30).res = none
  ∧ (AppContext.Shutdown (AppContext.Shutdown acFresh wFresh 30).ctx
      (AppContext.Shutdown acFresh wFresh 30).world 30).record = [] := by
  have h := claim4_theorem acFresh wFresh 0 30 30 rfl
  exact ⟨h.2.1, h.2.2.1⟩

/-! ### Claim C8 -/

/-- Claim C8 counterexample: on the fresh context the reserved "appcontext"
entry exists before shutdown and every drain handler succeeds, so the claim
requires a final Healthy entry for the context itself; but after
`AppContext.Shutdown` the health map is empty — no final-state entry is ever
written back. -/
theorem claim8_counterexample :
    mapLookup "appcontext" acFresh.healthStatus
      = some ⟨StatusHealthy, "Application context initialized", 0, 0⟩
  ∧ (AppContext.Shutdown acFresh wFresh 30).record.all (fun p => p.2.isNone) = true
  ∧ mapLookup "appcontext"
      (AppContext.Shutdown acFresh wFresh 30).ctx.healthStatus = none :=
  ⟨rfl, rfl, rfl⟩

/-- Claim C8 (amended): after `AppContext.Shutdown` on a context whose
channel was still open, the health registry has been cleared regardless of
its prior contents (the built-in "health" handler always runs and succeeds),
and it stays empty: no entry — in particular not the context's reserved
"appcontext" entry — is updated to reflect the final drain state. -/
theorem claim8_theorem (ac : AppContext) (w : World) (ch t : Nat)
    (h : ac.shutdown = some ch) :
    (AppContext.Shutdown ac w t).ctx.healthStatus = []
  ∧ mapLookup "appcontext" (AppContext.Shutdown ac w t).ctx.healthStatus = none := by
  cases ac with
  | mk sd hs =>
    cases h
    exact ⟨rfl, rfl⟩

/-- Claim C8 witness: the fresh context's registry is empty after shutdown. -/
theorem claim8_witness :
    (AppContext.Shutdown acFresh wFresh 30).ctx.healthStatus = [] :=
  (claim8_theorem acFresh wFresh 0 30 rfl).1

/-! ### Claim C10 -/

/-- Claim C10: a freshly constructed context is not shut down and hands out
the open channel it allocated; after `AppContext.Shutdown` the internal field
is nil, so `IsShutdown` is true and `GetShutdownChannel` / `WaitForShutdown`
return the nil channel rather than a closed one — while the channel obtained
before shutdown is closed in the heap, so only pre-shutdown listeners observe
the close. -/
theorem claim10_theorem (w : World) (now t : Nat) :
    AppContext.IsShutdown (NewAppContext w now).2 = false
  ∧ AppContext.GetShutdownChannel (NewAppContext w now).2 = some w.chans.length
  ∧ (NewAppContext w now).1.chans[w.chans.length]? = some false
  ∧ (AppContext.Shutdown (NewAppContext w now).2
      (NewAppContext w now).1 t).ctx.shutdown = none
  ∧ AppContext.IsShutdown (AppContext.Shutdown (NewAppContext w now).2
      (NewAppContext w now).1 t).ctx = true
  ∧ AppContext.GetShutdownChannel (AppContext.Shutdown (NewAppContext w now).2
      (NewAppContext w now).1 t).ctx = none
  ∧ AppContext.WaitForShutdown (AppContext.Shutdown (NewAppContext w now).2
      (NewAppContext w now).1 t).ctx = none
  ∧ (AppContext.Shutdown (NewAppContext w now).2
      (NewAppContext w now).1 t).world.chans[w.chans.length]? = some true := by
  refine ⟨rfl, rfl, ?_, rfl, rfl, rfl, rfl, ?_⟩
  · exact getElem?_append_singleton w.chans false
  · exact getElem?_set_append_singleton w.chans false true

/-! ### Claim C6 -/

/-- Claim C6: `GetOverallHealth` is Healthy on the empty map, Unhealthy as
soon as one stored entry is Unhealthy, Degraded when no entry is Unhealthy
but one is Degraded, and Healthy otherwise — and the whole returned value is
invariant under any reordering (permutation) of the underlying map entries,
so the result is independent of insertion and iteration order. -/
theorem claim6_theorem (now : Nat) (l₁ l₂ : List (String × HealthStatus))
    (hperm : l₁.Perm l₂) :
    GetOverallHealth now l₁ = GetOverallHealth now l₂
  ∧ (l₁ = [] → (GetOverallHealth now l₁).Status = StatusHealthy)
  ∧ ((∃ p ∈ l₁, p.2.Status = StatusUnhealthy) →
      (GetOverallHealth now l₁).Status = StatusUnhealthy)
  ∧ ((¬ ∃ p ∈ l₁, p.2.Status = StatusUnhealthy) →
      (∃ p ∈ l₁, p.2.Status = StatusDegraded) →
      (GetOverallHealth now l₁).Status = StatusDegraded)
  ∧ (l₁ ≠ [] → (¬ ∃ p ∈ l₁, p.2.Status = StatusUnhealthy) →
      (¬ ∃ p ∈ l₁, p.2.Status = StatusDegraded) →
      (GetOverallHealth now l₁).Status = StatusHealthy) := by
  refine ⟨?_, ?_, ?_, ?_, ?_⟩
  · simp only [GetOverallHealth, hperm.length_eq, overallFlagsLoop_eq]
    rw [perm_any _ hperm, perm_any _ hperm]
  · intro h
    subst h
    rfl
  · intro hex
    obtain ⟨p, hp, hps⟩ := hex
    have hne : ¬ l₁.length = 0 := by
      cases l₁ with
      | nil => simp at hp
      | cons x xs => simp
    have hany : l₁.any (fun q => q.2.Status = StatusUnhealthy) = true :=
      List.any_eq_true.mpr ⟨p, hp, by simpa using hps⟩
    simp [GetOverallHealth, hne, overallFlagsLoop_eq, hany]
  · intro hnu hex
    obtain ⟨p, hp, hps⟩ := hex
    have hne : ¬ l₁.length = 0 := by
      cases l₁ with
      | nil => simp at hp
      | cons x xs => simp
    have hanyu : l₁.any (fun q => q.2.Status = StatusUnhealthy) = false := by
      rw [List.any_eq_false]
      intro q hq hqs
      exact hnu ⟨q, hq, by simpa using hqs⟩
    have hanyd : l₁.any (fun q => q.2.Status = StatusDegraded) = true :=
      List.any_eq_true.mpr ⟨p, hp, by simpa using hps⟩
    simp [GetOverallHealth, hne, overallFlagsLoop_eq, hanyu, hanyd]
  · intro hnil hnu hnd
    have hne : ¬ l₁.length = 0 := by
      cases l₁ with
      | nil => exact absurd rfl hnil
      | cons x xs => simp
    have hanyu : l₁.any (fun q => q.2.Status = StatusUnhealthy) = false := by
      rw [List.any_eq_false]
      intro q hq hqs
      exact hnu ⟨q, hq, by simpa using hqs⟩
    have hanyd : l₁.any (fun q => q.2.Status = StatusDegraded) = false := by
      rw [List.any_eq_false]
      intro q hq hqs
      exact hnd ⟨q, hq, by simpa using hqs⟩
    simp [GetOverallHealth, hne, overallFlagsLoop_eq, hanyu, hanyd]

/-- An Unhealthy sample status. -/
def sampleUnhealthy : HealthStatus := ⟨StatusUnhealthy, "down", 0, 0⟩

/-- A Healthy sample status. -/
def sampleHealthy : HealthStatus := ⟨StatusHealthy, "up", 0, 0⟩

/-- Claim C6 witness: a two-entry map containing one Unhealthy component
aggregates to Unhealthy (applied through the permuted map as well). -/
theorem claim6_witness :
    (GetOverallHealth 3 [("web", sampleHealthy), ("db", sampleUnhealthy)]).Status
      = StatusUnhealthy := by
  have h := claim6_theorem 3 [("web", sampleHealthy), ("db", sampleUnhealthy)]
    [("db", sampleUnhealthy), ("web", sampleHealthy)] (List.Perm.swap _ _ _)
  exact h.2.2.1 ⟨("db", sampleUnhealthy), by simp, rfl⟩

/-! ### Claim C7 -/

/-- Claim C7: after `UpdateHealthStatus(name, status)` the stored entry's
`Timestamp` equals the registry clock at the moment of the write, regardless
of the caller-supplied value; whenever the caller's timestamp differs from
the clock, the stored timestamp provably differs from the forged one. -/
theorem claim7_theorem (now : Nat) (component : String) (status : HealthStatus)
    (m : List (String × HealthStatus)) :
    mapLookup component (UpdateHealthStatus now component status m)
      = some { status with Timestamp := now }
  ∧ (∀ stored, mapLookup component (UpdateHealthStatus now component status m)
      = some stored → stored.Timestamp = now)
  ∧ (status.Timestamp ≠ now →
      ∀ stored, mapLookup component (UpdateHealthStatus now component status m)
        = some stored → stored.Timestamp ≠ status.Timestamp) := by
  have h : mapLookup component (UpdateHealthStatus now component status m)
      = some { status with Timestamp := now } :=
    mapLookup_mapInsert_self component _ m
  refine ⟨h, ?_, ?_⟩
  · intro stored hs
    rw [h] at hs
    injection hs with h1
    rw [← h1]
  · intro hne stored hs
    rw [h] at hs
    injection hs with h1
    rw [← h1]
    intro hc
    exact hne hc.symm

/-- Claim C7 witness: writing a status carrying the forged timestamp 99 at
clock 5 stores timestamp 5, not 99. -/
theorem claim7_witness :
    mapLookup "db" (UpdateHealthStatus 5 "db" ⟨StatusHealthy, "up", 0, 99⟩ [])
      = some ⟨StatusHealthy, "up", 0, 5⟩
  ∧ ∀ stored, mapLookup "db" (UpdateHealthStatus 5 "db" ⟨StatusHealthy, "up", 0, 99⟩ [])
      = some stored → stored.Timestamp ≠ 99 := by
  have h := claim7_theorem 5 "db" ⟨StatusHealthy, "up", 0, 99⟩ []
  exact ⟨h.1, h.2.2 (by decide)⟩

end AuthService
